import Mathlib

/-!
Shallow embedding of the `weblooker` visitor-tracking service
(`src/tracker/utils.py`, `src/tracker/services.py`) together with proofs
about its rate limiter, record store, recorders, aggregation routines and
retention cleanup.

Modelling conventions:
* Python strings are Lean `String`s; where Python slices, splits or compares
  strings by code point we operate on `String.toList` (Python string
  operations are code-point based, so the two agree).
* Wall-clock instants handed to the rate limiter (`time.time()` floats) are
  modelled as rationals `ℚ`.
* The two JSON collection files are modelled by `FileState`: a backing file
  is absent, undecodable (bytes that are not valid UTF-8), corrupt at the
  JSON level, or holds an ordered sequence of records.
* Fallible stdlib calls are modelled with `Except PyErr` / `Option`.
* The external user-agent parser (`ua_parser`) is an explicit function
  parameter `resolver : String → Device`, and the current UTC time is an
  explicit parameter, since both are environment inputs.
-/

namespace WebLooker

/-- Python's truthiness-based `x or default` idiom on an optional string
argument: `None` and the empty string are falsy and select the default. -/
def pyOr (x : Option String) (dflt : String) : String :=
  match x with
  | none => dflt
  | some s => if s = "" then dflt else s

/-- Python `x or ''` on an optional string argument. -/
def pyOrEmpty (x : Option String) : String :=
  pyOr x ""

/-- Code-point lexicographic strict order on character lists; this is how
Python compares two `str` values with `<`. -/
def listLtChar : List Char → List Char → Bool
  | [], [] => false
  | [], _ :: _ => true
  | _ :: _, [] => false
  | a :: as, b :: bs => if a < b then true else if b < a then false else listLtChar as bs

/-- Python `a < b` on strings. -/
def pyStrLt (a b : String) : Bool :=
  listLtChar a.toList b.toList

/-- Python `s.split(sep)` for a one-character separator, on character lists;
splitting the empty list yields one empty field, exactly as in Python. -/
def splitOnChar (sep : Char) : List Char → List (List Char)
  | [] => [[]]
  | c :: rest =>
    let r := splitOnChar sep rest
    if c = sep then [] :: r else (c :: r.headI) :: r.tail

/-- Python `ip.split('.')` as a list of strings. -/
def pySplitDot (s : String) : List String :=
  (splitOnChar '.' s.toList).map String.mk

/-- Python `s.replace('Z', '+00:00')`: since the pattern is a single
character, the replacement is a per-character expansion. -/
def pyReplaceZ (s : String) : String :=
  String.mk ((s.toList.map (fun c => if c = 'Z' then "+00:00".toList else [c])).flatten)

/-- Python `s[:10]` (slice of the first ten code points). -/
def pySlice10 (s : String) : String :=
  String.mk (s.toList.take 10)

/-! ### Naive `datetime` values and `datetime.fromisoformat`

The service parses timestamps with `datetime.fromisoformat` and compares the
results.  Every timestamp the service itself writes is
`datetime.utcnow().isoformat()`, a naive (offset-free) ISO-8601 string, so the
model covers naive values `YYYY-MM-DD[THH:MM[:SS[.fff|.ffffff]]]`; a string
outside this shape (including one carrying a UTC-offset suffix) is out of the
modelled domain and parses to `none`. -/

/-- Naive `datetime.datetime` value (no timezone). -/
structure DateTimeN where
  year : Nat
  month : Nat
  day : Nat
  hour : Nat
  minute : Nat
  second : Nat
  microsecond : Nat
deriving DecidableEq, Repr

/-- Value of a decimal digit character. -/
def digitVal (c : Char) : Option Nat :=
  if c.isDigit then some (c.toNat - 48) else none

/-- Two-digit decimal field. -/
def num2 (a b : Char) : Option Nat := do
  let x ← digitVal a
  let y ← digitVal b
  pure (10 * x + y)

/-- Three-digit decimal field. -/
def num3 (a b c : Char) : Option Nat := do
  let x ← num2 a b
  let y ← digitVal c
  pure (10 * x + y)

/-- Four-digit decimal field. -/
def num4 (a b c d : Char) : Option Nat := do
  let x ← num2 a b
  let y ← num2 c d
  pure (100 * x + y)

/-- Gregorian leap-year test, as in Python's `calendar.isleap`. -/
def isLeapYear (y : Nat) : Bool :=
  y % 4 = 0 && (y % 100 ≠ 0 || y % 400 = 0)

/-- Number of days in a month, used to validate parsed dates. -/
def daysInMonth (y m : Nat) : Nat :=
  if m = 2 then (if isLeapYear y then 29 else 28)
  else if m = 4 ∨ m = 6 ∨ m = 9 ∨ m = 11 then 30
  else 31

/-- Validated `YYYY-MM-DD` date fields (Python's `datetime` requires
`year ≥ 1` and a real calendar day). -/
def parseDateFields (y1 y2 y3 y4 m1 m2 d1 d2 : Char) : Option (Nat × Nat × Nat) := do
  let y ← num4 y1 y2 y3 y4
  let mo ← num2 m1 m2
  let dy ← num2 d1 d2
  if 1 ≤ y ∧ 1 ≤ mo ∧ mo ≤ 12 ∧ 1 ≤ dy ∧ dy ≤ daysInMonth y mo then
    pure (y, mo, dy)
  else
    none

/-- Fractional-second field: three digits (milliseconds) or six digits
(microseconds). -/
def parseFraction : List Char → Option Nat
  | [a, b, c] => do
    let v ← num3 a b c
    pure (v * 1000)
  | [a, b, c, d, e, f] => do
    let hi ← num3 a b c
    let lo ← num3 d e f
    pure (hi * 1000 + lo)
  | _ => none

/-- Range check for parsed time fields. -/
def checkTime (h n s f : Nat) : Option (Nat × Nat × Nat × Nat) :=
  if h ≤ 23 ∧ n ≤ 59 ∧ s ≤ 59 then some (h, n, s, f) else none

/-- Time-of-day portion `HH:MM[:SS[.fff|.ffffff]]`. -/
def parseTimeFields : List Char → Option (Nat × Nat × Nat × Nat)
  | [h1, h2, ':', n1, n2] => do
    let h ← num2 h1 h2
    let n ← num2 n1 n2
    checkTime h n 0 0
  | [h1, h2, ':', n1, n2, ':', s1, s2] => do
    let h ← num2 h1 h2
    let n ← num2 n1 n2
    let s ← num2 s1 s2
    checkTime h n s 0
  | h1 :: h2 :: ':' :: n1 :: n2 :: ':' :: s1 :: s2 :: '.' :: frac => do
    let h ← num2 h1 h2
    let n ← num2 n1 n2
    let s ← num2 s1 s2
    let f ← parseFraction frac
    checkTime h n s f
  | _ => none

/-- Character-list body of `datetime.fromisoformat` on naive inputs: a
ten-character date, optionally followed by a separator (`T` or space) and a
time of day; anything else raises `ValueError`, modelled as `none`. -/
def parseIsoChars : List Char → Option DateTimeN
  | [y1, y2, y3, y4, '-', m1, m2, '-', d1, d2] => do
    let (y, mo, dy) ← parseDateFields y1 y2 y3 y4 m1 m2 d1 d2
    pure ⟨y, mo, dy, 0, 0, 0, 0⟩
  | y1 :: y2 :: y3 :: y4 :: '-' :: m1 :: m2 :: '-' :: d1 :: d2 :: sep :: timeRest =>
    if sep = 'T' ∨ sep = ' ' then do
      let (y, mo, dy) ← parseDateFields y1 y2 y3 y4 m1 m2 d1 d2
      let (h, n, s, f) ← parseTimeFields timeRest
      pure ⟨y, mo, dy, h, n, s, f⟩
    else
      none
  | _ => none

/-- Model of `datetime.fromisoformat` (naive inputs; see section comment). -/
def fromisoformat (s : String) : Option DateTimeN :=
  parseIsoChars s.toList

/-- Cumulative days before the first of each month. -/
def daysBeforeMonth (y m : Nat) : Nat :=
  [0, 31, 59, 90, 120, 151, 181, 212, 243, 273, 304, 334].getD (m - 1) 0
    + (if 3 ≤ m && isLeapYear y then 1 else 0)

/-- Microseconds elapsed since 0001-01-01T00:00:00 (proleptic Gregorian, the
same ordering `datetime` comparison uses on naive values). -/
def toInstant (d : DateTimeN) : Int :=
  let yp := d.year - 1
  let days := 365 * yp + yp / 4 - yp / 100 + yp / 400
    + daysBeforeMonth d.year d.month + (d.day - 1)
  (((((days * 24 + d.hour) * 60 + d.minute) * 60 + d.second) * 1000000
    + d.microsecond : Nat) : Int)

/-! ### File-backed record store (`read_json_file` / `write_json_file`) -/

/-- Exceptions the modelled stdlib calls can raise.  `unicodeDecodeError` is
Python's `UnicodeDecodeError`, raised while reading a file opened with
`encoding='utf-8'` whose bytes are not valid UTF-8; it is a `ValueError`, not
a `json.JSONDecodeError` and not an `IOError`. -/
inductive PyErr where
  | jsonDecodeError
  | ioError
  | unicodeDecodeError
  | attributeError
deriving DecidableEq, Repr

/-- State of one collection's backing file: absent; present but with bytes
that are not valid UTF-8 (`undecodable`); present and decodable but not valid
JSON (`corrupt`); or holding an ordered sequence of records. -/
inductive FileState (α : Type) where
  | missing
  | undecodable
  | corrupt
  | good (records : List α)
deriving DecidableEq, Repr

/-- Model of `os.path.exists(filepath)`. -/
def fileExists {α : Type} : FileState α → Bool
  | .missing => false
  | .undecodable => true
  | .corrupt => true
  | .good _ => true

/-- Model of `open(filepath, encoding='utf-8')` plus `json.load`: raises
`IOError` when the file cannot be opened, `UnicodeDecodeError` while reading
bytes that are not valid UTF-8, and `json.JSONDecodeError` when the decoded
text is not valid JSON. -/
def openAndParse {α : Type} : FileState α → Except PyErr (List α)
  | .missing => .error .ioError
  | .undecodable => .error .unicodeDecodeError
  | .corrupt => .error .jsonDecodeError
  | .good l => .ok l

/-- The `except (json.JSONDecodeError, IOError)` clause of
`utils.read_json_file`: exactly these two errors are caught;
`UnicodeDecodeError` is neither, so it is not. -/
def caughtByReadHandler : PyErr → Bool
  | .jsonDecodeError => true
  | .ioError => true
  | _ => false

/-- Model of `utils.read_json_file` with its error behaviour: a missing file
returns `[]` without opening; otherwise the open-and-parse runs, its handler
turns a caught error into `[]`, and any other error — in particular the
`UnicodeDecodeError` from an undecodable backing file — propagates to the
caller. -/
def read_json_file_exc {α : Type} (f : FileState α) : Except PyErr (List α) :=
  if fileExists f then
    match openAndParse f with
    | .ok l => .ok l
    | .error e => if caughtByReadHandler e then .ok [] else .error e
  else
    .ok []

/-- Value projection of `read_json_file_exc`, used by the service-layer
model, which plumbs no exceptions: on a state where the reader would raise
(`read_json_file_exc` returns an error) this projection's `[]` stands in for
the aborted computation; claims about the reader's error behaviour are
stated against `read_json_file_exc` itself. -/
def read_json_file {α : Type} (f : FileState α) : List α :=
  match read_json_file_exc f with
  | .ok l => l
  | .error _ => []

/-- Model of `utils.write_json_file`: replaces the backing file with the
serialized sequence (directory creation has no further observable effect). -/
def write_json_file {α : Type} (records : List α) : FileState α :=
  .good records

/-! ### Sliding-window rate limiter (`utils.RateLimiter`) -/

/-- The limiter's `self.requests` dictionary: one timestamp deque per client
identifier; a key that was never inserted reads as the fresh empty deque the
code creates on first contact. -/
def RLState : Type :=
  String → List ℚ

/-- The `while`-loop of `is_allowed`: pop timestamps from the front of the
deque while the front is `≤ now - time_window`. -/
def dropExpired (cutoff : ℚ) (dq : List ℚ) : List ℚ :=
  dq.dropWhile (fun t => decide (t ≤ cutoff))

/-- Model of `RateLimiter.is_allowed`: drop expired timestamps from the
key's deque, then admit (recording `now`) exactly when fewer than
`max_requests` timestamps remain. -/
def is_allowed (max_requests : Nat) (time_window : ℚ) (st : RLState)
    (identifier : String) (now : ℚ) : Bool × RLState :=
  let dq := dropExpired (now - time_window) (st identifier)
  if dq.length < max_requests then
    (true, Function.update st identifier (dq ++ [now]))
  else
    (false, Function.update st identifier dq)

/-- Drive `is_allowed` over a sequence of calls `(identifier, now)`,
returning each call paired with its verdict, and the final state. -/
def runCalls (max_requests : Nat) (time_window : ℚ) :
    RLState → List (String × ℚ) → List ((String × ℚ) × Bool) × RLState
  | st, [] => ([], st)
  | st, c :: rest =>
    let r := is_allowed max_requests time_window st c.1 c.2
    let res := runCalls max_requests time_window r.2 rest
    ((c, r.1) :: res.1, res.2)

/-- Times of the admitted calls for one client key in a run's verdict list. -/
def allowedTimesFor (k : String) (results : List ((String × ℚ) × Bool)) : List ℚ :=
  (results.filter (fun e => decide (e.1.1 = k) && e.2)).map (fun e => e.1.2)

/-! ### MD5 (`hashlib.md5`, RFC 1321) over UTF-8 bytes

The visit fingerprint is the first 16 hex characters of an MD5 hex digest.
Words are naturals reduced modulo `2 ^ 32`; byte strings are lists of
naturals below 256. -/

/-- UTF-8 encoding of one code point (`str.encode()`). -/
def charUtf8 (c : Char) : List Nat :=
  let n := c.toNat
  if n < 128 then [n]
  else if n < 2048 then [192 + n / 64, 128 + n % 64]
  else if n < 65536 then [224 + n / 4096, 128 + n / 64 % 64, 128 + n % 64]
  else [240 + n / 262144, 128 + n / 4096 % 64, 128 + n / 64 % 64, 128 + n % 64]

/-- UTF-8 bytes of a string (`combined.encode()`). -/
def strToUtf8 (s : String) : List Nat :=
  (s.toList.map charUtf8).flatten

/-- Reduce modulo the 32-bit word size. -/
def m32 (x : Nat) : Nat :=
  x % 4294967296

/-- Bitwise complement within a 32-bit word. -/
def compl32 (x : Nat) : Nat :=
  Nat.xor 4294967295 x

/-- Left-rotation of a 32-bit word. -/
def rotl32 (x s : Nat) : Nat :=
  Nat.lor (m32 (x * 2 ^ s)) (x / 2 ^ (32 - s))

/-- The 64 MD5 sine-derived round constants. -/
def md5K : List Nat :=
  [0xd76aa478, 0xe8c7b756, 0x242070db, 0xc1bdceee,
   0xf57c0faf, 0x4787c62a, 0xa8304613, 0xfd469501,
   0x698098d8, 0x8b44f7af, 0xffff5bb1, 0x895cd7be,
   0x6b901122, 0xfd987193, 0xa679438e, 0x49b40821,
   0xf61e2562, 0xc040b340, 0x265e5a51, 0xe9b6c7aa,
   0xd62f105d, 0x02441453, 0xd8a1e681, 0xe7d3fbc8,
   0x21e1cde6, 0xc33707d6, 0xf4d50d87, 0x455a14ed,
   0xa9e3e905, 0xfcefa3f8, 0x676f02d9, 0x8d2a4c8a,
   0xfffa3942, 0x8771f681, 0x6d9d6122, 0xfde5380c,
   0xa4beea44, 0x4bdecfa9, 0xf6bb4b60, 0xbebfbc70,
   0x289b7ec6, 0xeaa127fa, 0xd4ef3085, 0x04881d05,
   0xd9d4d039, 0xe6db99e5, 0x1fa27cf8, 0xc4ac5665,
   0xf4292244, 0x432aff97, 0xab9423a7, 0xfc93a039,
   0x655b59c3, 0x8f0ccc92, 0xffeff47d, 0x85845dd1,
   0x6fa87e4f, 0xfe2ce6e0, 0xa3014314, 0x4e0811a1,
   0xf7537e82, 0xbd3af235, 0x2ad7d2bb, 0xeb86d391]

/-- The 64 MD5 per-round left-rotation amounts. -/
def md5S : List Nat :=
  [7, 12, 17, 22, 7, 12, 17, 22, 7, 12, 17, 22, 7, 12, 17, 22,
   5, 9, 14, 20, 5, 9, 14, 20, 5, 9, 14, 20, 5, 9, 14, 20,
   4, 11, 16, 23, 4, 11, 16, 23, 4, 11, 16, 23, 4, 11, 16, 23,
   6, 10, 15, 21, 6, 10, 15, 21, 6, 10, 15, 21, 6, 10, 15, 21]

/-- MD5 round mixing function for round `i`. -/
def md5F (i b c d : Nat) : Nat :=
  if i < 16 then Nat.lor (Nat.land b c) (Nat.land (compl32 b) d)
  else if i < 32 then Nat.lor (Nat.land d b) (Nat.land (compl32 d) c)
  else if i < 48 then Nat.xor b (Nat.xor c d)
  else Nat.xor c (Nat.lor b (compl32 d))

/-- MD5 message-word index for round `i`. -/
def md5G (i : Nat) : Nat :=
  if i < 16 then i
  else if i < 32 then (5 * i + 1) % 16
  else if i < 48 then (3 * i + 5) % 16
  else (7 * i) % 16

/-- One MD5 round on state `(a, b, c, d)` with message words `M`. -/
def md5Round (M : List Nat) (st : Nat × Nat × Nat × Nat) (i : Nat) :
    Nat × Nat × Nat × Nat :=
  let a := st.1
  let b := st.2.1
  let c := st.2.2.1
  let d := st.2.2.2
  let f := m32 (a + md5F i b c d + md5K.getD i 0 + M.getD (md5G i) 0)
  (d, m32 (b + rotl32 f (md5S.getD i 0)), b, c)

/-- Four little-endian bytes to one 32-bit word. -/
def bytesToWords : List Nat → List Nat
  | b0 :: b1 :: b2 :: b3 :: rest =>
    (b0 + 256 * b1 + 65536 * b2 + 16777216 * b3) :: bytesToWords rest
  | _ => []

/-- One 512-bit block: 64 rounds, then add the incoming state. -/
def md5Block (st : Nat × Nat × Nat × Nat) (blockBytes : List Nat) :
    Nat × Nat × Nat × Nat :=
  let M := bytesToWords blockBytes
  let r := (List.range 64).foldl (md5Round M) st
  (m32 (st.1 + r.1), m32 (st.2.1 + r.2.1), m32 (st.2.2.1 + r.2.2.1),
   m32 (st.2.2.2 + r.2.2.2))

/-- Split a byte string into 64-byte blocks. -/
def chunks64 (l : List Nat) : List (List Nat) :=
  if h : l = [] then []
  else
    l.take 64 :: chunks64 (l.drop 64)
termination_by l.length
decreasing_by
  simp only [List.length_drop]
  exact Nat.sub_lt (List.length_pos.mpr h) (by norm_num)

/-- Four little-endian bytes of a 32-bit word. -/
def le32 (n : Nat) : List Nat :=
  [n % 256, n / 256 % 256, n / 65536 % 256, n / 16777216 % 256]

/-- Eight little-endian bytes of a 64-bit length field. -/
def le64 (n : Nat) : List Nat :=
  le32 (n % 4294967296) ++ le32 (n / 4294967296 % 4294967296)

/-- MD5 padding: `0x80`, zeros to 56 mod 64, then the bit length. -/
def md5Pad (msg : List Nat) : List Nat :=
  msg ++ [128] ++ List.replicate ((119 - msg.length % 64) % 64) 0
    ++ le64 (msg.length * 8)

/-- MD5 digest (16 bytes) of a byte string. -/
def md5Bytes (msg : List Nat) : List Nat :=
  let final := (chunks64 (md5Pad msg)).foldl md5Block
    (0x67452301, 0xefcdab89, 0x98badcfe, 0x10325476)
  le32 final.1 ++ le32 final.2.1 ++ le32 final.2.2.1 ++ le32 final.2.2.2

/-- The sixteen lowercase hexadecimal digit characters. -/
def hexDigits : List Char :=
  "0123456789abcdef".toList

/-- Hex character of a nibble. -/
def hexChar (n : Nat) : Char :=
  hexDigits.getD (n % 16) '0'

/-- Two hex characters of one byte. -/
def byteToHex (b : Nat) : List Char :=
  [hexChar (b / 16), hexChar b]

/-- Characters of `hashlib.md5(...).hexdigest()`. -/
def md5HexChars (s : String) : List Char :=
  ((md5Bytes (strToUtf8 s)).map byteToHex).flatten

/-- Model of `hashlib.md5(data.encode()).hexdigest()`. -/
def md5hexdigest (s : String) : String :=
  String.mk (md5HexChars s)

/-! ### Visitor-id and IP helpers (`utils.py`) -/

/-- Model of `utils.generate_visitor_id`: first 16 hex characters of the MD5
digest of `f"{ip_address}-{user_agent}"`. -/
def generate_visitor_id (ip_address user_agent : String) : String :=
  String.mk ((md5HexChars (ip_address ++ "-" ++ user_agent)).take 16)

/-- Model of `utils.anonymize_ip`: empty input maps to the empty string; an
input splitting into exactly four dot-separated fields keeps the first two
fields and masks the rest; any other input is returned unchanged. -/
def anonymize_ip (ip_address : String) : String :=
  if ip_address = "" then ""
  else
    let parts := pySplitDot ip_address
    if parts.length = 4 then
      parts.getD 0 "" ++ "." ++ parts.getD 1 "" ++ ".xxx.xxx"
    else
      ip_address

/-- Value of a decimal digit string, for `isIPv4Shaped`. -/
def decimalValue (l : List Char) : Nat :=
  l.foldl (fun a c => 10 * a + (c.toNat - 48)) 0

/-- Follows the spec's words: an IPv4-shaped string `a.b.c.d` is four
dot-separated fields, each a nonempty decimal numeral valued at most 255.
This is a spec-side notion used to compare the code's behaviour with the
claim; the code itself never checks it. -/
def isIPv4Shaped (s : String) : Bool :=
  let parts := pySplitDot s
  parts.length = 4 && parts.all (fun p =>
    p ≠ "" && p.toList.all Char.isDigit && decimalValue p.toList ≤ 255)

/-! ### VisitorService (`services.py`) -/

/-- Device descriptor produced by the external user-agent parser. -/
structure Device where
  browser : String
  browser_version : String
  os : String
  os_version : String
  device : String
deriving DecidableEq, Repr

/-- One stored visit record, with the exact fields `record_visit` writes. -/
structure Visit where
  visit_id : String
  ip_address : String
  user_agent : String
  page_url : String
  referrer : String
  screen_resolution : String
  language : String
  timestamp : String
  device : Device
  session_id : String
deriving DecidableEq, Repr

/-- One stored event record, with the exact fields `record_event` writes. -/
structure Event where
  event_id : Nat
  visit_id : String
  event_type : String
  event_data : List (String × String)
  element_selector : String
  timestamp : String
deriving DecidableEq, Repr

/-- The slice of the configuration dictionary the service reads, each key
possibly absent. -/
structure Config where
  anonymize_ip : Option Bool
  data_retention_days : Option Nat
deriving DecidableEq, Repr

/-- The service's storage root: the two collection files. -/
structure Store where
  visits : FileState Visit
  events : FileState Event

/-- The record `record_visit` builds before persisting: anonymised or raw
address per the `anonymize_ip` policy (default enabled), device info from the
external resolver, fingerprint from the raw address and agent, and default
empty strings / server time via Python `or`. -/
def visitRecordOf (cfg : Config) (resolver : String → Device) (nowIso : String)
    (ip_address user_agent page_url : String)
    (referrer screen_resolution language timestamp : Option String) : Visit :=
  let anonymized_ip :=
    if cfg.anonymize_ip.getD true then WebLooker.anonymize_ip ip_address else ip_address
  let device_info := resolver user_agent
  let visit_id := generate_visitor_id ip_address user_agent
  { visit_id := visit_id
    ip_address := anonymized_ip
    user_agent := user_agent
    page_url := page_url
    referrer := pyOrEmpty referrer
    screen_resolution := pyOrEmpty screen_resolution
    language := pyOrEmpty language
    timestamp := pyOr timestamp nowIso
    device := device_info
    session_id := visit_id }

/-- Model of `VisitorService.record_visit`: build the record, then
read-append-write the visits collection; returns `(visit_id, visit_data)`
and the new storage state. -/
def record_visit (cfg : Config) (resolver : String → Device) (nowIso : String)
    (st : Store) (ip_address user_agent page_url : String)
    (referrer screen_resolution language timestamp : Option String) :
    String × Visit × Store :=
  let visit_data :=
    visitRecordOf cfg resolver nowIso ip_address user_agent page_url
      referrer screen_resolution language timestamp
  let visits := read_json_file st.visits
  (visit_data.visit_id, visit_data,
    { st with visits := write_json_file (visits ++ [visit_data]) })

/-- Model of `VisitorService.record_event`: the event id is the current
events-collection size plus one; the record is then appended via
read-append-write.  Returns the assigned id and the new storage state. -/
def record_event (st : Store) (nowIso : String) (event_type : String)
    (event_data : Option (List (String × String))) (visit_id : String)
    (element_selector timestamp : Option String) : Nat × Store :=
  let event : Event :=
    { event_id := (read_json_file st.events).length + 1
      visit_id := visit_id
      event_type := event_type
      event_data := event_data.getD []
      element_selector := pyOrEmpty element_selector
      timestamp := pyOr timestamp nowIso }
  let events := read_json_file st.events
  (event.event_id, { st with events := write_json_file (events ++ [event]) })

/-! ### Date filtering in `get_visitor_stats` -/

/-- One `defaultdict(int)` increment: bump the key in place or insert it at
the end, preserving Python dict insertion order. -/
def bumpCount (l : List (String × Nat)) (k : String) : List (String × Nat) :=
  match l with
  | [] => [(k, 1)]
  | (k', n) :: rest =>
    if k' = k then (k', n + 1) :: rest else (k', n) :: bumpCount rest k

/-- Occurrence counts of a key sequence in first-occurrence order
(`defaultdict(int)` filled by a loop). -/
def countBy (keys : List String) : List (String × Nat) :=
  keys.foldl bumpCount []

/-- Stable insertion into a descending-by-count list: a new entry goes after
every existing entry of greater or equal count, as Python's stable `sorted`
with `reverse=True` arranges ties in original order. -/
def insertByCountDesc (x : String × Nat) : List (String × Nat) → List (String × Nat)
  | [] => [x]
  | y :: ys => if x.2 > y.2 then x :: y :: ys else y :: insertByCountDesc x ys

/-- Model of `sorted(d.items(), key=count, reverse=True)` (stable). -/
def sortByCountDesc (l : List (String × Nat)) : List (String × Nat) :=
  l.foldl (fun acc x => insertByCountDesc x acc) []

/-- Result shape of the `pageviews` metric: `by_page` and `top_pages` are
association lists in their Python dict/list order. -/
structure PageviewsResult where
  total : Nat
  by_page : List (String × Nat)
  top_pages : List (String × Nat)
deriving DecidableEq, Repr

/-- Model of `VisitorService._calculate_pageviews`. -/
def calculate_pageviews (visits : List Visit) : PageviewsResult :=
  let sorted_pages := sortByCountDesc (countBy (visits.map (·.page_url)))
  { total := visits.length
    by_page := sorted_pages.take 50
    top_pages := sorted_pages.take 10 }

/-- One day's accumulator entry of `_calculate_timeline`: date, pageview
count, and the distinct visitor ids seen (insertion order, deduplicated —
the model of the Python `set`, whose size is all that is read). -/
def bumpDaily (acc : List (String × Nat × List String)) (date vid : String) :
    List (String × Nat × List String) :=
  match acc with
  | [] => [(date, 1, [vid])]
  | (d, pv, vs) :: rest =>
    if d = date then
      (d, pv + 1, if vid ∈ vs then vs else vs ++ [vid]) :: rest
    else
      (d, pv, vs) :: bumpDaily rest date vid

/-- Ascending insertion by date key for `sorted(daily.keys())`. -/
def insertByDateAsc (x : String × Nat × List String) :
    List (String × Nat × List String) → List (String × Nat × List String)
  | [] => [x]
  | y :: ys => if pyStrLt x.1 y.1 then x :: y :: ys else y :: insertByDateAsc x ys

/-- One row of the `timeline` metric. -/
structure TimelineEntry where
  date : String
  pageviews : Nat
  visitors : Nat
deriving DecidableEq, Repr

/-- Model of `VisitorService._calculate_timeline`: group by the first ten
characters of the timestamp, then emit rows in ascending date order with the
day's pageview count and distinct-visitor count. -/
def calculate_timeline (visits : List Visit) : List TimelineEntry :=
  let daily := visits.foldl
    (fun acc v => bumpDaily acc (pySlice10 v.timestamp) v.visit_id) []
  (daily.foldr insertByDateAsc []).map (fun e => ⟨e.1, e.2.1, e.2.2.length⟩)

/-! ### Retention cleanup -/

/-- Retention test of `utils.cleanup_old_data`'s loop body: a record with an
empty (or absent) timestamp is skipped; otherwise the timestamp (with `Z`
expanded to `+00:00`) is parsed, a parse failure keeps the record
(fail-open), and a parsed timestamp is kept exactly when it is at or after
the cutoff. -/
def keepAfterCleanup (cutoff : Int) (ts : String) : Bool :=
  if ts = "" then false
  else
    match fromisoformat (pyReplaceZ ts) with
    | none => true
    | some d => decide (cutoff ≤ toInstant d)

/-- Model of `utils.cleanup_old_data` on one collection file, with the
record's timestamp read by `ts`: missing file is left untouched; otherwise
the cutoff is `utcnow() - timedelta(days=days)` and the surviving records are
written back. -/
def cleanup_old_data {α : Type} (now : DateTimeN) (days : Nat)
    (f : FileState α) (ts : α → String) : FileState α :=
  if fileExists f then
    let cutoff : Int := toInstant now - (days * 86400) * 1000000
    let data := read_json_file f
    write_json_file (data.filter (fun a => keepAfterCleanup cutoff (ts a)))
  else
    f

/-- In `services.py` line 293 the cutoff is written
`datetime.utcnow() - datetime.timedelta(days=retention_days)`.  The module
imports the class (`from datetime import datetime`), so `datetime.timedelta`
is an attribute lookup on the `datetime` class, which has no such attribute:
evaluating the expression raises `AttributeError` unconditionally. -/
def cleanupCutoffExpr (now : DateTimeN) (retention_days : Nat) : Except PyErr Int :=
  .error .attributeError

/-- The loop body of `VisitorService.cleanup_data` for one collection file:
nothing happens when the file is absent; otherwise the cutoff expression is
evaluated first, and only if that evaluation returns does the loop reach its
retention filter (textually the same filter as `cleanup_old_data`'s) and the
write-back. -/
def cleanupDataFile {α : Type} (now : DateTimeN) (retention_days : Nat)
    (f : FileState α) (ts : α → String) : Except PyErr (FileState α) :=
  if fileExists f then do
    let cutoff ← cleanupCutoffExpr now retention_days
    let data := read_json_file f
    pure (write_json_file (data.filter (fun a =>
      if ts a = "" then false
      else
        match fromisoformat (pyReplaceZ (ts a)) with
        | none => true
        | some d => decide (cutoff ≤ toInstant d))))
  else
    pure f

/-- Model of `VisitorService.cleanup_data`: resolve the retention parameter
(argument, else `data_retention_days` config, else 90), run the loop over
the visits file then the events file, and return `True`; an exception in the
loop propagates. -/
def cleanup_data (cfg : Config) (now : DateTimeN) (daysArg : Option Nat)
    (st : Store) : Except PyErr (Bool × Store) := do
  let days := daysArg.getD (cfg.data_retention_days.getD 90)
  let visits' ← cleanupDataFile now days st.visits (·.timestamp)
  let events' ← cleanupDataFile now days st.events (·.timestamp)
  pure (true, { visits := visits', events := events' })

/-! ## Claims, C1 - C10 -/

/-- Concrete visit record with the aggregation-relevant fields set. -/
def mkVisit (vid url ts : String) : Visit :=
  { visit_id := vid
    ip_address := ""
    user_agent := ""
    page_url := url
    referrer := ""
    screen_resolution := ""
    language := ""
    timestamp := ts
    device := ⟨"", "", "", "", ""⟩
    session_id := vid }

/-- Reading back a freshly written collection yields what was written. -/
theorem read_write_json {α : Type} (l : List α) :
    read_json_file (write_json_file l) = l :=
  rfl

/-- A visits record one second before 2024-06-15T12:00:00. -/
def visitOneSecondOld : Visit :=
  mkVisit "id1" "/a" "2024-06-15T11:59:59"

/-- A visits record whose timestamp does not parse. -/
def visitBadTs : Visit :=
  mkVisit "id2" "/a" "not-a-date"

/-- C1: the claim says cleanup filters each collection by the retention
cutoff (fail-open on unparsable timestamps), writes the survivors back and
returns success.  The service's `cleanup_data` instead raises
`AttributeError` the moment a collection file exists, because its cutoff
expression looks up `datetime.timedelta` on the `datetime` class
(`services.py` line 293); the intended retention filter — realised verbatim
in `utils.cleanup_old_data` — does behave as claimed: with `days = 0` a
record one second in the past is removed and an unparsable timestamp is
retained. -/
theorem cleanup_data_raises_attribute_error :
    cleanup_data ⟨some true, some 90⟩ ⟨2024, 6, 15, 12, 0, 0, 0⟩ (some 0)
        ⟨FileState.good [visitOneSecondOld], FileState.missing⟩
      = Except.error PyErr.attributeError
    ∧ cleanup_old_data ⟨2024, 6, 15, 12, 0, 0, 0⟩ 0
        (FileState.good [visitOneSecondOld, visitBadTs]) (fun v => v.timestamp)
      = write_json_file [visitBadTs] := by
  constructor
  · rfl
  · decide

/-- C4: on the spec's three-visit scenario the `pageviews` metric reports
`by_page = {"/a": 2, "/b": 1}` with `top_pages` led by `/a` at 2 views, and
the `timeline` metric reports exactly the two dates in ascending order with
pageviews 1/2 and distinct visitors 1/2. -/
theorem aggregation_scenario :
    calculate_pageviews
        [mkVisit "id1" "/a" "2024-01-01T00:00:00",
         mkVisit "id2" "/a" "2024-01-02T00:00:00",
         mkVisit "id3" "/b" "2024-01-02T00:00:00"]
      = { total := 3, by_page := [("/a", 2), ("/b", 1)],
          top_pages := [("/a", 2), ("/b", 1)] }
    ∧ (calculate_pageviews
        [mkVisit "id1" "/a" "2024-01-01T00:00:00",
         mkVisit "id2" "/a" "2024-01-02T00:00:00",
         mkVisit "id3" "/b" "2024-01-02T00:00:00"]).top_pages.head?
      = some ("/a", 2)
    ∧ calculate_timeline
        [mkVisit "id1" "/a" "2024-01-01T00:00:00",
         mkVisit "id2" "/a" "2024-01-02T00:00:00",
         mkVisit "id3" "/b" "2024-01-02T00:00:00"]
      = [⟨"2024-01-01", 1, 1⟩, ⟨"2024-01-02", 2, 2⟩] := by
  refine ⟨?_, ?_, ?_⟩ <;> decide

/-- C6 counterexample: a corrupt backing file whose bytes are not valid
UTF-8 makes the reader raise `UnicodeDecodeError`; the handler catches only
`json.JSONDecodeError` and `IOError`, so the error propagates to the caller
instead of the claimed empty sequence. -/
theorem load_propagates_on_undecodable :
    read_json_file_exc (FileState.undecodable : FileState Visit)
        = Except.error PyErr.unicodeDecodeError
    ∧ read_json_file_exc (FileState.undecodable : FileState Visit)
        ≠ Except.ok ([] : List Visit) :=
  ⟨rfl, fun h => Except.noConfusion h⟩

/-- C6 amended: loading a collection whose backing file is absent, or is
corrupt at the JSON level (bytes decode as UTF-8 but fail parsing), yields
the empty sequence — every error the handler catches (`JSONDecodeError`,
`IOError`) is recovered to `[]` — but a corrupt file whose bytes are not
valid UTF-8 raises `UnicodeDecodeError`, which the handler does not catch
and which propagates; wherever the reader returns, the service layer's value
projection agrees with it. -/
theorem load_recovery_amended (α : Type) (f : FileState α) (e : PyErr)
    (l : List α) :
    read_json_file_exc (FileState.missing : FileState α) = Except.ok []
    ∧ read_json_file_exc (FileState.corrupt : FileState α) = Except.ok []
    ∧ read_json_file_exc (FileState.undecodable : FileState α)
        = Except.error PyErr.unicodeDecodeError
    ∧ (openAndParse f = .error e → caughtByReadHandler e = true →
        read_json_file_exc f = Except.ok [])
    ∧ (read_json_file_exc f = Except.ok l → read_json_file f = l) := by
  refine ⟨rfl, rfl, rfl, fun he hc => ?_, fun h => ?_⟩
  · cases f with
    | missing => rfl
    | undecodable =>
      obtain rfl : PyErr.unicodeDecodeError = e := by
        cases he
        rfl
      cases hc
    | corrupt => rfl
    | good l' => cases he
  · unfold read_json_file
    rw [h]

/-- Witness for C6 at a concrete JSON-level-corrupt events file. -/
theorem load_recovery_amended_witness :
    openAndParse (FileState.corrupt : FileState Event)
        = Except.error PyErr.jsonDecodeError
    ∧ caughtByReadHandler PyErr.jsonDecodeError = true
    ∧ read_json_file_exc (FileState.corrupt : FileState Event) = Except.ok [] :=
  ⟨rfl, rfl,
    (load_recovery_amended Event FileState.corrupt PyErr.jsonDecodeError
      []).2.2.2.1 rfl rfl⟩

/-- C8 counterexample: `"a.b.c.d"` is not IPv4-shaped — its fields are not
decimal numerals — yet `anonymize_ip` rewrites it, contradicting the claim
that every non-IPv4-shaped string is returned unchanged. -/
theorem anonymize_ip_rewrites_non_ipv4 :
    isIPv4Shaped "a.b.c.d" = false ∧ anonymize_ip "a.b.c.d" ≠ "a.b.c.d" := by
  decide

/-- C8 amended: `anonymize_ip` masks the last two of the dot-separated
fields of any string that has exactly four of them — numeric or not, so in
particular every IPv4-shaped string, for example `"203.0.113.42"` — and
returns any string without exactly four dot-fields unchanged. -/
theorem anonymize_ip_amended (s : String) :
    anonymize_ip "203.0.113.42" = "203.0.xxx.xxx"
    ∧ ((pySplitDot s).length ≠ 4 → anonymize_ip s = s)
    ∧ ((pySplitDot s).length = 4 →
        anonymize_ip s = (pySplitDot s).getD 0 "" ++ "." ++ (pySplitDot s).getD 1 ""
          ++ ".xxx.xxx") := by
  refine ⟨by decide, fun h => ?_, fun h => ?_⟩
  · by_cases hs : s = ""
    · subst hs; rfl
    · simp only [anonymize_ip, hs, if_false, h, ite_false]
  · by_cases hs : s = ""
    · subst hs; simp [pySplitDot, splitOnChar] at h
    · simp only [anonymize_ip, hs, if_false, h, ite_true]

/-- Witness for C8 at the non-four-field input `"hello"` and the four-field
input `"203.0.113.42"`. -/
theorem anonymize_ip_amended_witness :
    (pySplitDot "hello").length ≠ 4
    ∧ anonymize_ip "hello" = "hello"
    ∧ (pySplitDot "203.0.113.42").length = 4
    ∧ anonymize_ip "203.0.113.42"
        = (pySplitDot "203.0.113.42").getD 0 "" ++ "."
          ++ (pySplitDot "203.0.113.42").getD 1 "" ++ ".xxx.xxx" :=
  ⟨by decide, (anonymize_ip_amended "hello").2.1 (by decide), by decide,
    (anonymize_ip_amended "203.0.113.42").2.2 (by decide)⟩

/-- C10: the fingerprint is computed from the raw, pre-anonymization address,
so the returned `visit_id` does not depend on the `anonymize_ip` policy; the
stored record differs between the two policies only in its `ip_address`
field; and a configuration without the `anonymize_ip` key behaves exactly as
the enabled policy. -/
theorem visit_id_independent_of_anonymization (rd1 rd2 : Option Nat)
    (res : String → Device) (now : String) (st1 st2 : Store)
    (ip ua url : String) (ref sr lang ts : Option String) :
    (record_visit ⟨some true, rd1⟩ res now st1 ip ua url ref sr lang ts).1
        = (record_visit ⟨some false, rd2⟩ res now st2 ip ua url ref sr lang ts).1
    ∧ (record_visit ⟨some true, rd1⟩ res now st1 ip ua url ref sr lang ts).1
        = generate_visitor_id ip ua
    ∧ (record_visit ⟨some true, rd1⟩ res now st1 ip ua url ref sr lang ts).2.1.ip_address
        = anonymize_ip ip
    ∧ (record_visit ⟨some false, rd2⟩ res now st2 ip ua url ref sr lang ts).2.1.ip_address
        = ip
    ∧ (record_visit ⟨none, rd1⟩ res now st1 ip ua url ref sr lang ts)
        = (record_visit ⟨some true, rd1⟩ res now st1 ip ua url ref sr lang ts)
    ∧ (record_visit ⟨some false, rd2⟩ res now st2 ip ua url ref sr lang ts).2.1.visit_id
        = (record_visit ⟨some true, rd1⟩ res now st1 ip ua url ref sr lang ts).2.1.visit_id
    ∧ (record_visit ⟨some false, rd2⟩ res now st2 ip ua url ref sr lang ts).2.1.user_agent
        = (record_visit ⟨some true, rd1⟩ res now st1 ip ua url ref sr lang ts).2.1.user_agent
    ∧ (record_visit ⟨some false, rd2⟩ res now st2 ip ua url ref sr lang ts).2.1.page_url
        = (record_visit ⟨some true, rd1⟩ res now st1 ip ua url ref sr lang ts).2.1.page_url
    ∧ (record_visit ⟨some false, rd2⟩ res now st2 ip ua url ref sr lang ts).2.1.referrer
        = (record_visit ⟨some true, rd1⟩ res now st1 ip ua url ref sr lang ts).2.1.referrer
    ∧ (record_visit ⟨some false, rd2⟩ res now st2 ip ua url ref sr lang ts).2.1.screen_resolution
        = (record_visit ⟨some true, rd1⟩ res now st1 ip ua url ref sr lang ts).2.1.screen_resolution
    ∧ (record_visit ⟨some false, rd2⟩ res now st2 ip ua url ref sr lang ts).2.1.language
        = (record_visit ⟨some true, rd1⟩ res now st1 ip ua url ref sr lang ts).2.1.language
    ∧ (record_visit ⟨some false, rd2⟩ res now st2 ip ua url ref sr lang ts).2.1.timestamp
        = (record_visit ⟨some true, rd1⟩ res now st1 ip ua url ref sr lang ts).2.1.timestamp
    ∧ (record_visit ⟨some false, rd2⟩ res now st2 ip ua url ref sr lang ts).2.1.device
        = (record_visit ⟨some true, rd1⟩ res now st1 ip ua url ref sr lang ts).2.1.device
    ∧ (record_visit ⟨some false, rd2⟩ res now st2 ip ua url ref sr lang ts).2.1.session_id
        = (record_visit ⟨some true, rd1⟩ res now st1 ip ua url ref sr lang ts).2.1.session_id :=
  ⟨rfl, rfl, rfl, rfl, rfl, rfl, rfl, rfl, rfl, rfl, rfl, rfl, rfl, rfl⟩

/-- Each hex character produced by `hexChar` is one of the sixteen hex
digits. -/
theorem hexChar_mem (n : Nat) : hexChar n ∈ hexDigits := by
  unfold hexChar
  have h : n % 16 < 16 := Nat.mod_lt _ (by norm_num)
  generalize n % 16 = m at h ⊢
  interval_cases m <;> decide

/-- The hex encoding of a byte list has twice as many characters. -/
theorem hexChars_length (l : List Nat) :
    ((l.map byteToHex).flatten).length = 2 * l.length := by
  induction l with
  | nil => rfl
  | cons a t ih =>
    simp only [List.map_cons, List.flatten_cons, List.length_append, ih,
      byteToHex, List.length_cons, List.length_nil]
    omega

/-- Every character of a hex-encoded byte list is a hex digit. -/
theorem hexChars_mem (l : List Nat) (c : Char)
    (hc : c ∈ (l.map byteToHex).flatten) : c ∈ hexDigits := by
  obtain ⟨l', hl', hcl⟩ := List.mem_flatten.mp hc
  obtain ⟨b, _, hb⟩ := List.mem_map.mp hl'
  subst hb
  simp only [byteToHex, List.mem_cons, List.not_mem_nil, or_false] at hcl
  cases hcl with
  | inl h => subst h; exact hexChar_mem _
  | inr h => subst h; exact hexChar_mem _

/-- The MD5 digest always consists of sixteen bytes. -/
theorem md5Bytes_length (msg : List Nat) : (md5Bytes msg).length = 16 := by
  simp [md5Bytes, le32]

/-- An MD5 hex digest always has 32 characters. -/
theorem md5HexChars_length (s : String) : (md5HexChars s).length = 32 := by
  unfold md5HexChars
  rw [hexChars_length, md5Bytes_length]

/-- C3: the `visit_id` returned by `record_visit` is exactly
`generate_visitor_id ip user_agent`, hence identical across any two calls
that agree on `(ip, user_agent)` whatever the configuration, resolver,
clock, storage state or other payload fields; and the id is a 16-character
string of hexadecimal digits (a fixed-length hash of the pair). -/
theorem visit_id_deterministic_16_hex (cfg cfg' : Config)
    (res res' : String → Device) (now now' : String) (st st' : Store)
    (ip ua url url' : String) (ref ref' sr sr' lang lang' ts ts' : Option String) :
    (record_visit cfg res now st ip ua url ref sr lang ts).1
        = (record_visit cfg' res' now' st' ip ua url' ref' sr' lang' ts').1
    ∧ (record_visit cfg res now st ip ua url ref sr lang ts).1
        = generate_visitor_id ip ua
    ∧ (generate_visitor_id ip ua).length = 16
    ∧ (generate_visitor_id ip ua).toList.all (fun c => decide (c ∈ hexDigits))
        = true := by
  refine ⟨rfl, rfl, ?_, ?_⟩
  · show (String.mk ((md5HexChars (ip ++ "-" ++ ua)).take 16)).length = 16
    simp [String.length, md5HexChars_length]
  · rw [List.all_eq_true]
    intro c hc
    simp only [decide_eq_true_eq]
    have hmem : c ∈ md5HexChars (ip ++ "-" ++ ua) :=
      List.take_subset 16 _ hc
    exact hexChars_mem _ _ hmem

/-- Argument bundle for one `record_visit` call. -/
structure VisitArgs where
  ip_address : String
  user_agent : String
  page_url : String
  referrer : Option String
  screen_resolution : Option String
  language : Option String
  timestamp : Option String

/-- One `record_visit` call from an argument bundle. -/
def applyRecordVisit (cfg : Config) (res : String → Device) (now : String)
    (st : Store) (a : VisitArgs) : String × Visit × Store :=
  record_visit cfg res now st a.ip_address a.user_agent a.page_url
    a.referrer a.screen_resolution a.language a.timestamp

/-- Sequentially record a list of visits, collecting the returned records. -/
def recordAll (cfg : Config) (res : String → Device) (now : String) :
    Store → List VisitArgs → Store × List Visit
  | st, [] => (st, [])
  | st, a :: rest =>
    let r := applyRecordVisit cfg res now st a
    let t := recordAll cfg res now r.2.2 rest
    (t.1, r.2.1 :: t.2)

/-- After a run of sequential `record_visit` calls the visits collection
holds what it held before followed by the records of the run, in call
order. -/
theorem recordAll_visits (cfg : Config) (res : String → Device) (now : String) :
    ∀ (args : List VisitArgs) (st : Store),
    read_json_file ((recordAll cfg res now st args).1).visits
      = read_json_file st.visits ++ (recordAll cfg res now st args).2 := by
  intro args
  induction args with
  | nil => intro st; simp [recordAll]
  | cons a rest ih =>
    intro st
    simp only [recordAll]
    rw [ih]
    show read_json_file (write_json_file (read_json_file st.visits ++ _)) ++ _ = _
    rw [read_write_json]
    simp [applyRecordVisit, record_visit]

/-- The records a run of `record_visit` calls returns do not depend on the
storage state: they are the per-argument canonical records. -/
theorem recordAll_outputs (cfg : Config) (res : String → Device) (now : String) :
    ∀ (args : List VisitArgs) (st : Store),
    (recordAll cfg res now st args).2
      = args.map (fun a =>
          visitRecordOf cfg res now a.ip_address a.user_agent a.page_url
            a.referrer a.screen_resolution a.language a.timestamp) := by
  intro args
  induction args with
  | nil => intro st; rfl
  | cons a rest ih =>
    intro st
    simp only [recordAll, List.map_cons]
    exact congrArg _ (ih _)

/-- C7: appending any sequence of visits to an initially empty collection
and then loading it yields exactly the records of those calls, in append
order — in particular as many records as calls. -/
theorem append_then_load_roundtrip (cfg : Config) (res : String → Device)
    (now : String) (ev : FileState Event) (args : List VisitArgs) :
    read_json_file ((recordAll cfg res now ⟨write_json_file [], ev⟩ args).1).visits
        = (recordAll cfg res now ⟨write_json_file [], ev⟩ args).2
    ∧ (recordAll cfg res now ⟨write_json_file [], ev⟩ args).2
        = args.map (fun a =>
            visitRecordOf cfg res now a.ip_address a.user_agent a.page_url
              a.referrer a.screen_resolution a.language a.timestamp)
    ∧ ((recordAll cfg res now ⟨write_json_file [], ev⟩ args).2).length
        = args.length := by
  refine ⟨?_, recordAll_outputs cfg res now args _, ?_⟩
  · rw [recordAll_visits]
    rfl
  · rw [recordAll_outputs]
    exact List.length_map _ _

/-- One recorded event call with a timestamp far in the past, used to show
what retention cleanup does to the event-id counter. -/
def oldEventCall (st : Store) : Nat × Store :=
  record_event st "2024-06-15T12:00:00" "click" none "v1" none
    (some "2000-01-01T00:00:00")

/-- First event recorded into empty storage. -/
def eventRun1 : Nat × Store :=
  oldEventCall ⟨FileState.missing, FileState.missing⟩

/-- Second event recorded after the first. -/
def eventRun2 : Nat × Store :=
  oldEventCall eventRun1.2

/-- Storage after retention cleanup with `days = 0` at 2024-06-15T12:00:00,
which removes both stored events (their timestamps predate the cutoff). -/
def storeAfterCleanup : Store :=
  ⟨eventRun2.2.visits,
    cleanup_old_data ⟨2024, 6, 15, 12, 0, 0, 0⟩ 0 eventRun2.2.events
      (fun e => e.timestamp)⟩

/-- Third event, recorded after the cleanup. -/
def eventRun3 : Nat × Store :=
  oldEventCall storeAfterCleanup

/-- C9 counterexample: two events get ids 1 and 2; a retention cleanup that
removes both shrinks the collection, so the next `record_event` assigns
`event_id = 1` again — the sequence of assigned ids 1, 2, 1 is not
monotonically increasing. -/
theorem event_id_regresses_after_cleanup :
    eventRun1.1 = 1 ∧ eventRun2.1 = 2 ∧ eventRun3.1 = 1
    ∧ ¬ eventRun2.1 < eventRun3.1 := by
  refine ⟨by decide, by decide, by decide, by decide⟩

/-- Argument bundle for one `record_event` call. -/
structure EventArgs where
  event_type : String
  event_data : Option (List (String × String))
  visit_id : String
  element_selector : Option String
  timestamp : Option String

/-- Sequentially record a list of events, collecting the assigned ids. -/
def recordEvents (nowIso : String) : Store → List EventArgs → Store × List Nat
  | st, [] => (st, [])
  | st, a :: rest =>
    let r := record_event st nowIso a.event_type a.event_data a.visit_id
      a.element_selector a.timestamp
    let t := recordEvents nowIso r.2 rest
    (t.1, r.1 :: t.2)

/-- Ids assigned by a run of `record_event` calls over a collection holding
`l`: consecutive integers starting at `l.length + 1`. -/
theorem recordEvents_ids (nowIso : String) :
    ∀ (args : List EventArgs) (vs : FileState Visit) (l : List Event),
    (recordEvents nowIso ⟨vs, FileState.good l⟩ args).2
      = (List.range args.length).map (fun i => l.length + i + 1) := by
  intro args
  induction args with
  | nil => intro vs l; rfl
  | cons a rest ih =>
    intro vs l
    simp only [recordEvents]
    have h1 : record_event ⟨vs, FileState.good l⟩ nowIso a.event_type
        a.event_data a.visit_id a.element_selector a.timestamp
        = (l.length + 1, ⟨vs, FileState.good (l ++
            [⟨l.length + 1, a.visit_id, a.event_type, a.event_data.getD [],
              pyOrEmpty a.element_selector, pyOr a.timestamp nowIso⟩])⟩) := rfl
    rw [h1, ih]
    simp only [List.length_append, List.length_cons, List.length_nil,
      List.range_succ_eq_map, List.map_cons, List.map_map]
    refine List.cons_eq_cons.mpr ⟨by omega, ?_⟩
    apply List.map_congr_left
    intro i _
    simp only [Function.comp_apply]
    omega

/-- C9 amended: `record_event` assigns `event_id` as the events-collection
size plus one at append time, and over a sequence of `record_event` calls
alone the assigned ids are the consecutive integers from `size + 1` upward,
hence strictly increasing; a cleanup that removes records shrinks the size,
after which ids repeat or regress (see the counterexample). -/
theorem event_id_size_plus_one (nowIso : String) (vs : FileState Visit)
    (l : List Event) (args : List EventArgs) (a : EventArgs) :
    (record_event ⟨vs, FileState.good l⟩ nowIso a.event_type a.event_data
        a.visit_id a.element_selector a.timestamp).1
      = (read_json_file (FileState.good l : FileState Event)).length + 1
    ∧ (recordEvents nowIso ⟨vs, FileState.good l⟩ args).2
      = (List.range args.length).map (fun i => l.length + i + 1)
    ∧ ((recordEvents nowIso ⟨vs, FileState.good l⟩ args).2).Pairwise (· < ·) := by
  refine ⟨rfl, recordEvents_ids nowIso args vs l, ?_⟩
  rw [recordEvents_ids]
  exact (List.pairwise_lt_range _).map _ (fun h => by omega)

/-- On a sorted deque, popping expired timestamps from the front removes
exactly the timestamps at or before the cutoff. -/
theorem dropExpired_eq_filter (c : ℚ) :
    ∀ (l : List ℚ), l.Sorted (· ≤ ·) →
    dropExpired c l = l.filter (fun t => decide (c < t)) := by
  intro l
  induction l with
  | nil => intro _; rfl
  | cons a t ih =>
    intro hl
    rw [List.sorted_cons] at hl
    obtain ⟨ha, ht⟩ := hl
    by_cases hc : a ≤ c
    · have h1 : decide (c < a) = false := by simp [not_lt.mpr hc]
      have h2 : decide (a ≤ c) = true := by simp [hc]
      simp only [dropExpired, List.dropWhile_cons, h2, if_true, List.filter_cons,
        h1, if_false, Bool.false_eq_true]
      exact ih ht
    · push_neg at hc
      have h1 : decide (c < a) = true := by simp [hc]
      have h2 : decide (a ≤ c) = false := by simp [not_le.mpr hc]
      have hfit : t.filter (fun x => decide (c < x)) = t :=
        List.filter_eq_self.mpr (fun x hx => by
          simp only [decide_eq_true_eq]
          exact lt_of_lt_of_le hc (ha x hx))
      simp only [dropExpired, List.dropWhile_cons, h2, Bool.false_eq_true,
        if_false, List.filter_cons, h1, if_true, hfit]

/-- Popping expired timestamps never lengthens the deque. -/
theorem dropExpired_length_le (c : ℚ) (l : List ℚ) :
    (dropExpired c l).length ≤ l.length :=
  (List.dropWhile_sublist _).length_le

/-- Popping expired timestamps preserves sortedness. -/
theorem dropExpired_sorted (c : ℚ) (l : List ℚ) (h : l.Sorted (· ≤ ·)) :
    (dropExpired c l).Sorted (· ≤ ·) :=
  h.sublist (List.dropWhile_sublist _)

/-- Popping expired timestamps keeps only deque members. -/
theorem dropExpired_subset (c : ℚ) (l : List ℚ) :
    ∀ x ∈ dropExpired c l, x ∈ l :=
  fun _ hx => (List.dropWhile_sublist _).subset hx

/-- Calls to one key do not touch another key's deque. -/
theorem is_allowed_frame (max_requests : Nat) (w : ℚ) (st : RLState)
    (id k : String) (t : ℚ) (hk : id ≠ k) :
    ((is_allowed max_requests w st id t).2) k = st k := by
  unfold is_allowed
  dsimp only
  split_ifs <;> exact Function.update_noteq (Ne.symm hk) _ _

/-- Core sliding-window invariant: over any sequence of calls at
nondecreasing times, all at or before a reference time `T`, the in-window
(`> T - w`) part of key `k`'s deque plus the in-window admitted calls for
`k` never exceed `max_requests`, provided the starting deque is sorted, not
over capacity, and no newer than the calls. -/
theorem run_bound (max_requests : Nat) (w : ℚ) (k : String) (T : ℚ) :
    ∀ (calls : List (String × ℚ)) (st : RLState),
    (calls.map Prod.snd).Sorted (· ≤ ·) →
    (∀ c ∈ calls, c.2 ≤ T) →
    (st k).Sorted (· ≤ ·) →
    (∀ x ∈ st k, ∀ c ∈ calls, x ≤ c.2) →
    (st k).length ≤ max_requests →
    ((st k).filter (fun t => decide (T - w < t))).length
      + ((allowedTimesFor k (runCalls max_requests w st calls).1).filter
          (fun t => decide (T - w < t))).length
      ≤ max_requests := by
  intro calls
  induction calls with
  | nil =>
    intro st _ _ _ _ hlen
    simp only [runCalls, allowedTimesFor, List.filter_nil, List.map_nil,
      List.length_nil, Nat.add_zero]
    exact le_trans (List.length_filter_le _ _) hlen
  | cons c rest ih =>
    obtain ⟨id, t⟩ := c
    intro st hsort hT hstSorted hstBound hstLen
    rw [List.map_cons, List.sorted_cons] at hsort
    obtain ⟨hts, hrest⟩ := hsort
    simp only [runCalls]
    by_cases hk : id = k
    · subst hk
      have htT : t ≤ T := hT (id, t) (List.mem_cons_self _ _)
      have hq : dropExpired (t - w) (st id)
          = (st id).filter (fun x => decide (t - w < x)) :=
        dropExpired_eq_filter _ _ hstSorted
      have hPfilter : (dropExpired (t - w) (st id)).filter
            (fun x => decide (T - w < x))
          = (st id).filter (fun x => decide (T - w < x)) := by
        rw [hq, List.filter_filter]
        apply List.filter_congr
        intro x _
        by_cases hx : T - w < x
        · have hx2 : t - w < x := lt_of_le_of_lt (by linarith) hx
          simp [hx, hx2]
        · simp [hx]
      by_cases hlen : (dropExpired (t - w) (st id)).length < max_requests
      · simp only [is_allowed, hlen, if_true]
        have hupd : (Function.update st id
              (dropExpired (t - w) (st id) ++ [t])) id
            = dropExpired (t - w) (st id) ++ [t] :=
          Function.update_same _ _ _
        have hsortedQ : (dropExpired (t - w) (st id) ++ [t]).Sorted (· ≤ ·) := by
          show List.Pairwise (· ≤ ·) (dropExpired (t - w) (st id) ++ [t])
          rw [List.pairwise_append]
          refine ⟨dropExpired_sorted _ _ hstSorted,
            List.pairwise_singleton _ _, ?_⟩
          intro x hx y hy
          rw [List.mem_singleton] at hy
          rw [hy]
          exact hstBound x (dropExpired_subset _ _ x hx) (id, t)
            (List.mem_cons_self _ _)
        have hboundQ : ∀ x ∈ dropExpired (t - w) (st id) ++ [t],
            ∀ c ∈ rest, x ≤ c.2 := by
          intro x hx c hc
          rcases List.mem_append.mp hx with hxq | hxt
          · exact hstBound x (dropExpired_subset _ _ x hxq) c
              (List.mem_cons_of_mem _ hc)
          · rw [List.mem_singleton] at hxt
            rw [hxt]
            exact hts c.2 (List.mem_map_of_mem Prod.snd hc)
        have hlenQ : (dropExpired (t - w) (st id) ++ [t]).length
            ≤ max_requests := by
          rw [List.length_append, List.length_singleton]
          omega
        have hih := ih (Function.update st id (dropExpired (t - w) (st id) ++ [t]))
          hrest (fun c hc => hT c (List.mem_cons_of_mem _ hc))
          (by rw [hupd]; exact hsortedQ)
          (by rw [hupd]; exact hboundQ)
          (by rw [hupd]; exact hlenQ)
        rw [hupd, List.filter_append, List.length_append, hPfilter] at hih
        have hatf : allowedTimesFor id (((id, t), true) :: (runCalls max_requests w
              (Function.update st id (dropExpired (t - w) (st id) ++ [t])) rest).1)
            = t :: allowedTimesFor id (runCalls max_requests w
              (Function.update st id (dropExpired (t - w) (st id) ++ [t])) rest).1 := by
          simp [allowedTimesFor]
        rw [hatf, List.filter_cons]
        by_cases hPt : T - w < t
        · have hcond : decide (T - w < t) = true := decide_eq_true hPt
          have h1 : ([t].filter (fun x => decide (T - w < x))).length = 1 := by
            simp [List.filter_cons, hPt]
          rw [if_pos hcond, List.length_cons]
          rw [h1] at hih
          omega
        · have hcond : ¬ decide (T - w < t) = true := by simp [hPt]
          have h1 : ([t].filter (fun x => decide (T - w < x))).length = 0 := by
            simp [List.filter_cons, hPt]
          rw [if_neg hcond]
          rw [h1] at hih
          omega
      · simp only [is_allowed, hlen, if_false]
        have hupd : (Function.update st id (dropExpired (t - w) (st id))) id
            = dropExpired (t - w) (st id) :=
          Function.update_same _ _ _
        have hih := ih (Function.update st id (dropExpired (t - w) (st id)))
          hrest (fun c hc => hT c (List.mem_cons_of_mem _ hc))
          (by rw [hupd]; exact dropExpired_sorted _ _ hstSorted)
          (by
            rw [hupd]
            intro x hx c hc
            exact hstBound x (dropExpired_subset _ _ x hx) c
              (List.mem_cons_of_mem _ hc))
          (by
            rw [hupd]
            exact le_trans (dropExpired_length_le _ _) hstLen)
        rw [hupd, hPfilter] at hih
        have hatf : allowedTimesFor id (((id, t), false) :: (runCalls max_requests w
              (Function.update st id (dropExpired (t - w) (st id))) rest).1)
            = allowedTimesFor id (runCalls max_requests w
              (Function.update st id (dropExpired (t - w) (st id))) rest).1 := by
          simp [allowedTimesFor]
        rw [hatf]
        exact hih
    · have hframe : ((is_allowed max_requests w st id t).2) k = st k :=
        is_allowed_frame max_requests w st id k t hk
      have hatf : allowedTimesFor k (((id, t),
              (is_allowed max_requests w st id t).1) ::
            (runCalls max_requests w (is_allowed max_requests w st id t).2 rest).1)
          = allowedTimesFor k (runCalls max_requests w
              (is_allowed max_requests w st id t).2 rest).1 := by
        simp [allowedTimesFor, hk]
      rw [hatf]
      have hih := ih ((is_allowed max_requests w st id t).2)
        hrest (fun c hc => hT c (List.mem_cons_of_mem _ hc))
        (by rw [hframe]; exact hstSorted)
        (by
          rw [hframe]
          intro x hx c hc
          exact hstBound x hx c (List.mem_cons_of_mem _ hc))
        (by rw [hframe]; exact hstLen)
      rw [hframe] at hih
      exact hih

/-- C2: on each call the key's deque is first pruned of timestamps older
than `now - time_window`; the call is admitted iff fewer than `max_requests`
timestamps remain, an admitted call appends its timestamp, a denied call
leaves exactly the pruned (in-window) deque; and over any sequence of
sequential calls at nondecreasing times started from a fresh limiter, for
every client key and every reference time `T` at or after the calls, at most
`max_requests` admitted calls for that key fall in the trailing interval
`(T - time_window, T]`. -/
theorem rate_limiter_sliding_window (max_requests : Nat) (time_window : ℚ)
    (st : RLState) (identifier : String) (now : ℚ)
    (calls : List (String × ℚ)) (k : String) (T : ℚ) :
    ((is_allowed max_requests time_window st identifier now).1 = true
      ↔ (dropExpired (now - time_window) (st identifier)).length < max_requests)
    ∧ ((is_allowed max_requests time_window st identifier now).1 = true →
        (is_allowed max_requests time_window st identifier now).2 identifier
          = dropExpired (now - time_window) (st identifier) ++ [now])
    ∧ ((is_allowed max_requests time_window st identifier now).1 = false →
        (is_allowed max_requests time_window st identifier now).2 identifier
          = dropExpired (now - time_window) (st identifier))
    ∧ ((calls.map Prod.snd).Sorted (· ≤ ·) → (∀ c ∈ calls, c.2 ≤ T) →
        ((allowedTimesFor k
            (runCalls max_requests time_window (fun _ => []) calls).1).filter
          (fun t => decide (T - time_window < t))).length ≤ max_requests) := by
  refine ⟨?_, ?_, ?_, ?_⟩
  · unfold is_allowed
    dsimp only
    split_ifs with h
    · simp [h]
    · simp [h]
  · unfold is_allowed
    dsimp only
    split_ifs with h
    · intro _
      exact Function.update_same _ _ _
    · intro hfalse
      cases hfalse
  · unfold is_allowed
    dsimp only
    split_ifs with h
    · intro hfalse
      cases hfalse
    · intro _
      exact Function.update_same _ _ _
  · intro hsort hT
    have h := run_bound max_requests time_window k T calls (fun _ => [])
      hsort hT (List.sorted_nil) (by intro x hx; cases hx) (Nat.zero_le _)
    simpa using h

/-- Witness for C2: two same-key calls at time 0 against a limiter allowing
one request per unit window admit at most one call in the trailing unit
interval ending at 0. -/
theorem rate_limiter_sliding_window_witness :
    (([(("a", (0 : ℚ))), ("a", (0 : ℚ))].map Prod.snd).Sorted (· ≤ ·))
    ∧ ((allowedTimesFor "a"
          (runCalls 1 1 (fun _ => []) [("a", (0 : ℚ)), ("a", (0 : ℚ))]).1).filter
        (fun t => decide ((0 : ℚ) - 1 < t))).length ≤ 1 :=
  ⟨by decide,
    (rate_limiter_sliding_window 1 1 (fun _ => []) "a" 0
      [("a", (0 : ℚ)), ("a", (0 : ℚ))] "a" 0).2.2.2 (by decide) (by decide)⟩
